import Mathlib

/-!
Verification of the pix-veil image-processor bridge
(src/image_processor/src/lib.rs) against its specification.

The crate exports two functions over the external `image` codec:

* `load_image_assembled (png_data) -> AssembledImageData` — decodes PNG
  bytes, falling back to a 1×1 zero RGB image on failure, converts to
  RGB8 and pairs the raw pixels with metadata (lib.rs lines 68-86);
* `write_image_data (raw_data, width, height, compression_level) -> bytes`
  — rebuilds an RGB8 image buffer from raw bytes, maps the compression
  level to a tier, and re-encodes as PNG with the NoFilter strategy
  (lib.rs lines 90-123).

Bytes are modelled as `Nat` (values 0-255 in the program), buffers as
`List Nat`, `u32` dimensions as `Nat`.  Rust panics (`expect`) are
modelled as `none` in an `Option` result.  The external PNG codec
(entropy coding, chunk parsing) is out of scope for the repository and
is modelled as an abstract `Codec` interface carrying the contract the
specification states for it (lossless round-trip; the empty byte
sequence is not a valid stream).
-/

set_option autoImplicit false

namespace PixVeil

/-- A decoded dynamic image as produced by the external codec
(models `image::DynamicImage`): dimensions, channel count of the
source pixel format, and the raw interleaved samples. -/
structure DynImage where
  width : Nat
  height : Nat
  channels : Nat
  data : List Nat
deriving DecidableEq

/-- A three-channel RGB8 image (models `image::RgbImage`,
i.e. `ImageBuffer<Rgb<u8>, Vec<u8>>` holding exactly
`width * height * 3` samples after conversion). -/
structure RgbImage where
  width : Nat
  height : Nat
  data : List Nat
deriving DecidableEq

/-- An `ImageBuffer` as built by `ImageBuffer::from_raw`: the container
may be longer than `width * height * 3`; only the leading samples are
image data. -/
structure ImageBuffer where
  width : Nat
  height : Nat
  data : List Nat
deriving DecidableEq

/-- PNG compression tiers (models `image::codecs::png::CompressionType`).
`Default` is the tier the specification calls `Balanced`. -/
inductive CompressionType where
  | Fast
  | Default
  | Best
deriving DecidableEq

/-- PNG per-row filter strategies
(models `image::codecs::png::FilterType`); `Adaptive` searches per row,
the rest are fixed filters. -/
inductive FilterType where
  | NoFilter
  | Sub
  | Up
  | Avg
  | Paeth
  | Adaptive
deriving DecidableEq

/-- The concrete encoder configuration handed to the external PNG
encoder (the pair passed to `PngEncoder::new_with_quality`). -/
structure PngParams where
  compression : CompressionType
  filter : FilterType
deriving DecidableEq

/-- Image metadata (models the `Metadata` struct of lib.rs lines 16-20:
width and height are `u32`, channels is `u8`). -/
structure Metadata where
  width : Nat
  height : Nat
  channels : Nat
deriving DecidableEq

/-- Raw pixels paired with metadata (models the `AssembledImageData`
struct of lib.rs lines 44-47; both fields are read-only to consumers,
exposed through getter methods only). -/
structure AssembledImageData where
  data : List Nat
  metadata : Metadata
deriving DecidableEq

/-- Conversion of one source pixel (given as its `c` interleaved
samples) to one RGB8 pixel, as done per pixel by
`DynamicImage::to_rgb8` / `ConvertBuffer::convert`: a three-channel
source is taken as-is, a luma source is replicated, an alpha channel is
dropped; the result always has exactly three samples. -/
def pixelToRgb (c : Nat) (px : List Nat) : List Nat :=
  if c = 1 ∨ c = 2 then
    [px.headD 0, px.headD 0, px.headD 0]
  else
    px.take 3 ++ List.replicate (3 - (px.take 3).length) 0

/-- Pixel-by-pixel RGB8 conversion of `n` pixels of a `c`-channel
sample buffer, as `ConvertBuffer::convert` does when it iterates the
(length-truncated) pixels of the source buffer into a freshly
allocated exact-size RGB8 buffer. -/
def chunksToRgb (c : Nat) : Nat → List Nat → List Nat
  | 0, _ => []
  | n + 1, data => pixelToRgb c (data.take c) ++ chunksToRgb c n (data.drop c)

/-- `DynamicImage::to_rgb8`: convert every pixel of the decoded image
to RGB8, producing an exact-size three-channel buffer. -/
def DynImage.to_rgb8 (img : DynImage) : RgbImage :=
  { width := img.width
    height := img.height
    data := chunksToRgb img.channels (img.width * img.height) img.data }

/-- `to_rgb8` applied to `DynamicImage::ImageRgb8 buf`: the conversion
copies the first `width * height * 3` samples of the container into an
exact-size RGB8 buffer (extra container bytes are not image data). -/
def ImageBuffer.to_rgb8 (buf : ImageBuffer) : RgbImage :=
  { width := buf.width
    height := buf.height
    data := chunksToRgb 3 (buf.width * buf.height) buf.data }

/-- View of an RGB8 image as a three-channel dynamic image
(`DynamicImage::ImageRgb8`). -/
def RgbImage.toDyn (img : RgbImage) : DynImage :=
  { width := img.width
    height := img.height
    channels := 3
    data := img.data }

/-- `DynamicImage::new_rgb8 w h`: a zero-valued `w`×`h` RGB image. -/
def DynImage.new_rgb8 (w h : Nat) : DynImage :=
  { width := w
    height := h
    channels := 3
    data := List.replicate (w * h * 3) 0 }

/-- The external PNG codec capability the crate delegates to.
Modelled from the spec: the specification treats the PNG
decoder/encoder as an excluded external collaborator reachable only
through `decode(bytes) -> pixel grid` and
`encode(pixel grid, params) -> bytes`.  The two contract fields are the
properties the specification states about that format: it is lossless
(§8, glossary), and malformed input — the empty sequence in
particular — fails to decode (§8). -/
structure Codec where
  decodePng : List Nat → Option DynImage
  encodePng : PngParams → RgbImage → List Nat
  empty_invalid : decodePng [] = none
  lossless : ∀ (p : PngParams) (img : RgbImage),
    decodePng (encodePng p img) = some img.toDyn

/-- `ImageBuffer::from_raw width height raw`: succeeds exactly when the
container holds at least `width * height * 3` samples (an over-long
container is accepted and kept). -/
def ImageBuffer.from_raw (width height : Nat) (buf : List Nat) :
    Option ImageBuffer :=
  if width * height * 3 ≤ buf.length then
    some { width := width, height := height, data := buf }
  else
    none

/-- The compression-tier mapping of lib.rs lines 106-111: a match on
the `u8` compression level (0-3 Fast, 4-6 Default, 7-9 Best, out of
range Fast).  The specification calls this function
`mapCompressionTier` and the `Default` tier `Balanced`. -/
def mapCompressionTier (level : Nat) : CompressionType :=
  if level ≤ 3 then CompressionType.Fast
  else if level ≤ 6 then CompressionType.Default
  else if level ≤ 9 then CompressionType.Best
  else CompressionType.Fast

/-- `load_image_assembled` (lib.rs lines 68-86): decode the PNG bytes,
substituting a 1×1 zero RGB image when decoding fails, convert to RGB8
and return the raw buffer together with metadata whose channel count is
the constant 3. -/
def load_image_assembled (codec : Codec) (png_data : List Nat) :
    AssembledImageData :=
  let img := (codec.decodePng png_data).getD (DynImage.new_rgb8 1 1)
  let rgb_img := img.to_rgb8
  { data := rgb_img.data
    metadata :=
      { width := rgb_img.width
        height := rgb_img.height
        channels := 3 } }

/-- `write_image_data` (lib.rs lines 90-123): rebuild an RGB8 buffer
from the raw bytes (`expect` panic, modelled as `none`, when `from_raw`
refuses the buffer), map the compression level to a tier, and encode
via the external PNG encoder configured with that tier and the
`NoFilter` strategy.  The encoder checks that the sample buffer length
matches `width * height * 3` exactly; a mismatch is the second `expect`
panic, also modelled as `none`. -/
def write_image_data (codec : Codec) (raw_data : List Nat)
    (width height : Nat) (compression_level : Nat) : Option (List Nat) :=
  match ImageBuffer.from_raw width height raw_data with
  | none => none
  | some img_buffer =>
    let compression := mapCompressionTier compression_level
    let rgb := img_buffer.to_rgb8
    if rgb.data.length = width * height * 3 then
      some (codec.encodePng
        { compression := compression, filter := FilterType.NoFilter } rgb)
    else
      none

/-- Modelled from the spec: the boundary surface of §6 lists a
`getMetadata(bytes) -> {width, height, channelCount}` operation, a
decode-then-discard-pixels variant of decode; no such export exists in
src/image_processor/src/lib.rs, so it is modelled here exactly as the
spec words it. -/
def getMetadata (codec : Codec) (bytes : List Nat) : Metadata :=
  (load_image_assembled codec bytes).metadata

/-- A concrete executable instance of the external codec interface,
used to evaluate the bridge on concrete inputs: it serialises width,
height and the raw samples and parses them back. -/
def trivCodec : Codec where
  decodePng bytes :=
    match bytes with
    | w :: h :: rest => some { width := w, height := h, channels := 3, data := rest }
    | _ => none
  encodePng _ img := img.width :: img.height :: img.data
  empty_invalid := rfl
  lossless _ _ := rfl

/-! ### Helper lemmas -/

theorem pixelToRgb_length (c : Nat) (px : List Nat) :
    (pixelToRgb c px).length = 3 := by
  unfold pixelToRgb
  split
  · rfl
  · simp only [List.length_append, List.length_replicate, List.length_take]
    omega

theorem chunksToRgb_length (c n : Nat) (data : List Nat) :
    (chunksToRgb c n data).length = 3 * n := by
  induction n generalizing data with
  | zero => rfl
  | succ n ih =>
    simp only [chunksToRgb, List.length_append, pixelToRgb_length, ih]
    omega

theorem chunksToRgb_eq_take (n : Nat) (data : List Nat)
    (h : 3 * n ≤ data.length) :
    chunksToRgb 3 n data = data.take (3 * n) := by
  induction n generalizing data with
  | zero => rfl
  | succ n ih =>
    have h3 : (data.take 3).length = 3 := by
      simp only [List.length_take]
      omega
    have hpx : pixelToRgb 3 (data.take 3) = data.take 3 := by
      unfold pixelToRgb
      rw [if_neg (by omega)]
      rw [List.take_take]
      simp [h3]
    have hdrop : 3 * n ≤ (data.drop 3).length := by
      simp only [List.length_drop]
      omega
    calc chunksToRgb 3 (n + 1) data
        = data.take 3 ++ chunksToRgb 3 n (data.drop 3) := by
          simp [chunksToRgb, hpx]
      _ = data.take 3 ++ (data.drop 3).take (3 * n) := by rw [ih _ hdrop]
      _ = data.take (3 + 3 * n) := (List.take_add data 3 (3 * n)).symm
      _ = data.take (3 * (n + 1)) := by ring_nf

theorem chunksToRgb_id (n : Nat) (data : List Nat)
    (h : data.length = 3 * n) :
    chunksToRgb 3 n data = data := by
  rw [chunksToRgb_eq_take n data (le_of_eq h.symm), ← h, List.take_length]

theorem write_image_data_some (codec : Codec) (raw : List Nat)
    (w h lvl : Nat) (hle : w * h * 3 ≤ raw.length) :
    write_image_data codec raw w h lvl =
      some (codec.encodePng
        { compression := mapCompressionTier lvl, filter := FilterType.NoFilter }
        { width := w, height := h, data := raw.take (w * h * 3) }) := by
  have hmul : 3 * (w * h) = w * h * 3 := by ring
  have hlen : (chunksToRgb 3 (w * h) raw).length = w * h * 3 := by
    rw [chunksToRgb_length]; omega
  unfold write_image_data ImageBuffer.from_raw
  rw [if_pos hle]
  simp only [ImageBuffer.to_rgb8, if_pos hlen]
  rw [chunksToRgb_eq_take (w * h) raw (by omega), hmul]

theorem write_image_data_none (codec : Codec) (raw : List Nat)
    (w h lvl : Nat) (hlt : raw.length < w * h * 3) :
    write_image_data codec raw w h lvl = none := by
  unfold write_image_data ImageBuffer.from_raw
  rw [if_neg (by omega)]

/-! ### Claims -/

/-- Claim C1: for every byte sequence the external decode capability
rejects (the empty sequence in particular, by the codec contract),
`load_image_assembled` raises no error and returns the sentinel: a
pixel buffer of length 3, all zero, with metadata width 1, height 1,
channel count 3. -/
theorem claim1_sentinel_on_invalid_input (codec : Codec) (bytes : List Nat) :
    (codec.decodePng bytes = none →
      load_image_assembled codec bytes =
        { data := [0, 0, 0],
          metadata := { width := 1, height := 1, channels := 3 } }) ∧
    load_image_assembled codec [] =
      { data := [0, 0, 0],
        metadata := { width := 1, height := 1, channels := 3 } } := by
  have key : ∀ bs : List Nat, codec.decodePng bs = none →
      load_image_assembled codec bs =
        { data := [0, 0, 0],
          metadata := { width := 1, height := 1, channels := 3 } } := by
    intro bs hbs
    unfold load_image_assembled
    rw [hbs]
    rfl
  exact ⟨key bytes, key [] codec.empty_invalid⟩

theorem claim1_witness :
    trivCodec.decodePng [7] = none ∧
    load_image_assembled trivCodec [7] =
      { data := [0, 0, 0],
        metadata := { width := 1, height := 1, channels := 3 } } :=
  ⟨rfl, (claim1_sentinel_on_invalid_input trivCodec [7]).1 rfl⟩

/-- Claim C2: the compression-tier mapping is total and deterministic
on the representable `u8` levels: 0-3 yield Fast, 4-6 yield Default
(the tier the spec calls Balanced), 7-9 yield Best, and every other
representable level (10-255) yields Fast; no input errors. -/
theorem claim2_tier_mapping_total (level : Nat) (hlt : level < 256) :
    (level ≤ 3 → mapCompressionTier level = CompressionType.Fast) ∧
    (4 ≤ level → level ≤ 6 → mapCompressionTier level = CompressionType.Default) ∧
    (7 ≤ level → level ≤ 9 → mapCompressionTier level = CompressionType.Best) ∧
    (10 ≤ level → mapCompressionTier level = CompressionType.Fast) := by
  unfold mapCompressionTier
  refine ⟨fun h1 => ?_, fun h1 h2 => ?_, fun h1 h2 => ?_, fun h1 => ?_⟩ <;>
    split_ifs <;> first | rfl | omega

theorem claim2_witness :
    mapCompressionTier 2 = CompressionType.Fast ∧
    mapCompressionTier 5 = CompressionType.Default ∧
    mapCompressionTier 8 = CompressionType.Best ∧
    mapCompressionTier 200 = CompressionType.Fast :=
  ⟨(claim2_tier_mapping_total 2 (by decide)).1 (by decide),
   (claim2_tier_mapping_total 5 (by decide)).2.1 (by decide) (by decide),
   (claim2_tier_mapping_total 8 (by decide)).2.2.1 (by decide) (by decide),
   (claim2_tier_mapping_total 200 (by decide)).2.2.2 (by decide)⟩

/-- Claim C3 counterexample: the claim says `write_image_data` fails
whenever the buffer length differs from `width * height * 3`, but a
13-byte buffer with width 2 and height 2 (13 ≠ 12) is accepted:
`ImageBuffer::from_raw` only requires the container to be at least
`width * height * 3` long. -/
theorem claim3_counterexample :
    (write_image_data trivCodec (List.replicate 13 0) 2 2 0).isSome = true := by
  decide

/-- Claim C3 as amended: `write_image_data` fails fast, producing no
output, exactly when the raw buffer is shorter than
`width * height * 3` (so a 10-byte buffer with width 2 and height 2
fails); an over-long buffer is accepted. -/
theorem claim3_amended_fail_iff_too_short (codec : Codec) (raw : List Nat)
    (w h lvl : Nat) :
    write_image_data codec raw w h lvl = none ↔ raw.length < w * h * 3 := by
  constructor
  · intro hnone
    by_contra hge
    rw [write_image_data_some codec raw w h lvl (by omega)] at hnone
    exact Option.noConfusion hnone
  · exact write_image_data_none codec raw w h lvl

/-- Claim C4: for every input byte sequence, the assembled image
satisfies the pairing invariant
`buffer.length = width * height * channelCount`. -/
theorem claim4_assembled_invariant (codec : Codec) (bytes : List Nat) :
    (load_image_assembled codec bytes).data.length =
      (load_image_assembled codec bytes).metadata.width *
        (load_image_assembled codec bytes).metadata.height *
        (load_image_assembled codec bytes).metadata.channels := by
  unfold load_image_assembled
  cases hd : codec.decodePng bytes with
  | none =>
    simp [DynImage.to_rgb8, DynImage.new_rgb8, chunksToRgb_length]
  | some d =>
    simp only [Option.getD_some, DynImage.to_rgb8, chunksToRgb_length]
    ring

/-- Claim C5: encode/decode round-trip. For every raw three-channel
buffer of the exact length `w * h * 3` and every compression level, a
successful `write_image_data` output decodes back (through
`load_image_assembled`) to the identical pixel bytes with dimensions
exactly (w, h) and channel count 3 — the external format is lossless
per the codec contract. -/
theorem claim5_lossless_roundtrip (codec : Codec) (raw : List Nat)
    (w h lvl : Nat) (out : List Nat)
    (hlen : raw.length = w * h * 3)
    (hout : write_image_data codec raw w h lvl = some out) :
    load_image_assembled codec out =
      { data := raw, metadata := { width := w, height := h, channels := 3 } } := by
  rw [write_image_data_some codec raw w h lvl (le_of_eq hlen.symm)] at hout
  have htake : raw.take (w * h * 3) = raw := by
    rw [← hlen, List.take_length]
  rw [htake] at hout
  rw [← Option.some.inj hout]
  unfold load_image_assembled
  rw [codec.lossless]
  simp only [Option.getD_some, RgbImage.toDyn, DynImage.to_rgb8]
  rw [chunksToRgb_id (w * h) raw (by omega)]

theorem claim5_witness :
    write_image_data trivCodec [1, 2, 3] 1 1 0 = some [1, 1, 1, 2, 3] ∧
    load_image_assembled trivCodec [1, 1, 1, 2, 3] =
      { data := [1, 2, 3], metadata := { width := 1, height := 1, channels := 3 } } :=
  ⟨by decide,
   claim5_lossless_roundtrip trivCodec [1, 2, 3] 1 1 0 [1, 1, 1, 2, 3]
     (by decide) (by decide)⟩

/-- Claim C6: both paths keep the three-channel baseline layout: every
`load_image_assembled` result carries channel count 3, and every
successful `write_image_data` output is a stream that decodes (by the
codec contract) to a three-channel image, alpha never written. -/
theorem claim6_always_three_channels (codec : Codec) :
    (∀ bytes, (load_image_assembled codec bytes).metadata.channels = 3) ∧
    (∀ raw w h lvl out, write_image_data codec raw w h lvl = some out →
      ∃ d : DynImage, codec.decodePng out = some d ∧ d.channels = 3) := by
  constructor
  · intro bytes
    rfl
  · intro raw w h lvl out hout
    have hle : w * h * 3 ≤ raw.length := by
      by_contra hlt
      rw [write_image_data_none codec raw w h lvl (by omega)] at hout
      exact Option.noConfusion hout
    rw [write_image_data_some codec raw w h lvl hle] at hout
    refine ⟨RgbImage.toDyn { width := w, height := h, data := raw.take (w * h * 3) }, ?_, rfl⟩
    rw [← Option.some.inj hout]
    exact codec.lossless _ _

theorem claim6_witness :
    (load_image_assembled trivCodec [4]).metadata.channels = 3 ∧
    ∃ d : DynImage, trivCodec.decodePng [1, 1, 5, 6, 7] = some d ∧ d.channels = 3 :=
  ⟨(claim6_always_three_channels trivCodec).1 [4],
   (claim6_always_three_channels trivCodec).2 [5, 6, 7] 1 1 0 [1, 1, 5, 6, 7]
     (by decide)⟩

/-- Claim C7: `write_image_data` takes no filtering flag, and every
successful call hands the external encoder the `NoFilter` strategy
(together with the mapped compression tier): the output is the encoding
of some RGB image under exactly those parameters. -/
theorem claim7_nofilter_strategy (codec : Codec) (raw : List Nat)
    (w h lvl : Nat) (out : List Nat)
    (hout : write_image_data codec raw w h lvl = some out) :
    ∃ rgb : RgbImage,
      out = codec.encodePng
        { compression := mapCompressionTier lvl,
          filter := FilterType.NoFilter } rgb := by
  have hle : w * h * 3 ≤ raw.length := by
    by_contra hlt
    rw [write_image_data_none codec raw w h lvl (by omega)] at hout
    exact Option.noConfusion hout
  rw [write_image_data_some codec raw w h lvl hle] at hout
  exact ⟨_, (Option.some.inj hout).symm⟩

theorem claim7_witness :
    ∃ rgb : RgbImage,
      [1, 1, 5, 6, 7] = trivCodec.encodePng
        { compression := mapCompressionTier 0,
          filter := FilterType.NoFilter } rgb :=
  claim7_nofilter_strategy trivCodec [5, 6, 7] 1 1 0 [1, 1, 5, 6, 7] (by decide)

/-- Claim C8: the spec-modelled `getMetadata` returns, on every validly
encoded W×H input stream, exactly width W, height H, channel count 3. -/
theorem claim8_getMetadata_exact (codec : Codec) (p : PngParams)
    (img : RgbImage) :
    getMetadata codec (codec.encodePng p img) =
      { width := img.width, height := img.height, channels := 3 } := by
  unfold getMetadata load_image_assembled
  rw [codec.lossless]
  rfl

/-- Claim C9: both exported operations are deterministic and stateless:
equal inputs give equal outputs, and the embedding carries no state
between calls (the Rust crate holds no mutable global — its only static
is the allocator). -/
theorem claim9_stateless_deterministic (codec : Codec)
    (b b2 raw raw2 : List Nat) (w w2 h h2 lvl lvl2 : Nat)
    (hb : b = b2) (hraw : raw = raw2) (hw : w = w2) (hh : h = h2)
    (hl : lvl = lvl2) :
    load_image_assembled codec b = load_image_assembled codec b2 ∧
    write_image_data codec raw w h lvl =
      write_image_data codec raw2 w2 h2 lvl2 := by
  subst hb hraw hw hh hl
  exact ⟨rfl, rfl⟩

theorem claim9_witness :
    load_image_assembled trivCodec [2] = load_image_assembled trivCodec [2] ∧
    write_image_data trivCodec [1, 2, 3] 1 1 4 =
      write_image_data trivCodec [1, 2, 3] 1 1 4 :=
  claim9_stateless_deterministic trivCodec [2] [2] [1, 2, 3] [1, 2, 3]
    1 1 1 1 4 4 rfl rfl rfl rfl rfl

/-- Claim C10: the buffer-construction failure of `write_image_data`
happens exactly when the raw buffer is shorter than
`width * height * 3`; any longer buffer is accepted, and the output
depends only on the first `width * height * 3` bytes. -/
theorem claim10_overlong_accepted (codec : Codec) (raw : List Nat)
    (w h lvl : Nat) :
    (write_image_data codec raw w h lvl = none ↔ raw.length < w * h * 3) ∧
    (w * h * 3 ≤ raw.length →
      write_image_data codec raw w h lvl =
        write_image_data codec (raw.take (w * h * 3)) w h lvl) := by
  constructor
  · constructor
    · intro hnone
      by_contra hge
      rw [write_image_data_some codec raw w h lvl (by omega)] at hnone
      exact Option.noConfusion hnone
    · exact write_image_data_none codec raw w h lvl
  · intro hle
    have hle2 : w * h * 3 ≤ (raw.take (w * h * 3)).length := by
      simp only [List.length_take]
      omega
    rw [write_image_data_some codec raw w h lvl hle,
      write_image_data_some codec (raw.take (w * h * 3)) w h lvl hle2]
    simp [List.take_take]

theorem claim10_witness :
    write_image_data trivCodec [9, 9, 9, 7] 1 1 0 =
      write_image_data trivCodec [9, 9, 9] 1 1 0 :=
  (claim10_overlong_accepted trivCodec [9, 9, 9, 7] 1 1 0).2 (by decide)

end PixVeil
